import Mathlib

/-!
# Space Explorer — feed data-loading core

Shallow embedding of the paginated, deduplicated, search-aware image feed
(`ImageDataContext`: `fetchPage`, `loadMore`, `refresh`), as implemented in
the frontend context module.  Asynchrony is modelled by splitting `fetchPage`
into its synchronous part (everything before the `await` of the remote
call) and its continuation (the success / failure handlers together with the
`finally` block); the in-flight ref `isLoadingRef` is part of the state.
-/

/-- One raw record of the remote response, before normalization.  Fields that
JavaScript may leave `null`/`undefined` are `Option`s.  `confidence_score` is
a numeric payload opaque to the feed logic; it is carried, never inspected. -/
structure RawImage where
  id : Option String
  name : String
  description : String
  launch_date : String
  image_url : Option String
  canonical_url : Option String
  type : String
  keywords : List String
  photographer : String
  search : Bool
  confidence_score : Option Int
deriving DecidableEq

/-- The `ImageData` interface: a normalized catalog entry held in the feed. -/
structure ImageData where
  id : String
  name : String
  description : String
  launch_date : String
  image_url : String
  canonical_url : Option String
  type : String
  keywords : List String
  photographer : String
  search : Bool
  confidence_score : Option Int
deriving DecidableEq

/-- `const PAGE_SIZE = 60`. -/
def PAGE_SIZE : Nat := 60

/-- One entry of the raw `response.data` array; `none` models a null or
undefined entry, which `.filter(Boolean)` removes. -/
abbrev RawEntry := Option RawImage

/-- The normalization applied to each surviving raw record at post-filter
index `i`: `{ ...it, id: it?.id ?? ` tmp-offset-i `, image_url: it.image_url || '' }`. -/
def normalizeItem (offset i : Nat) (it : RawImage) : ImageData :=
  { id := it.id.getD ("tmp-" ++ toString offset ++ "-" ++ toString i)
    name := it.name
    description := it.description
    launch_date := it.launch_date
    image_url := it.image_url.getD ""
    canonical_url := it.canonical_url
    type := it.type
    keywords := it.keywords
    photographer := it.photographer
    search := it.search
    confidence_score := it.confidence_score }

/-- `.map((it, i) => …)` over the filtered array, the index threaded
explicitly. -/
def normalizeFrom (offset : Nat) : Nat → List RawImage → List ImageData
  | _, [] => []
  | i, it :: rest => normalizeItem offset i it :: normalizeFrom offset (i + 1) rest

/-- `incomingItems`: `(response.data ?? []).filter(Boolean).map((it, i) => …)`. -/
def incomingItemsOf (offset : Nat) (data : Option (List RawEntry)) : List ImageData :=
  normalizeFrom offset 0 ((data.getD []).filterMap id)

/-- The stateful `uniqueItems` filter: each record whose id the dedup set
already holds is dropped; a surviving record's id is added to the set before
the next record is examined.  Returns the survivors together with the final
dedup set (the JS `Set` is modelled as a list with membership). -/
def dedupFilter (seen : List String) : List ImageData → List ImageData × List String
  | [] => ([], seen)
  | it :: rest =>
    if it.id ∈ seen then dedupFilter seen rest
    else
      (it :: (dedupFilter (it.id :: seen) rest).1, (dedupFilter (it.id :: seen) rest).2)

/-- The feed state held by `ImageDataProvider`: React state plus the two refs
(`isLoadingRef`, `loadedIdsRef`). -/
structure FeedState where
  images : List ImageData
  loading : Bool
  error : Option String
  hasMore : Bool
  isLoadingMore : Bool
  isLoadingRef : Bool
  loadedIds : List String
deriving DecidableEq

/-- The provider's initial state (`useState` / `useRef` initializers). -/
def initFeedState : FeedState :=
  { images := []
    loading := true
    error := none
    hasMore := true
    isLoadingMore := false
    isLoadingRef := false
    loadedIds := [] }

/-- The query parameters `fetchPage` passes to `sourcesAPI.getSources`. -/
structure SourceParams where
  offset : Nat
  limit : Nat
  q : Option String
deriving DecidableEq

/-- `const params = { offset, limit: PAGE_SIZE }; if (searchQuery &&
searchQuery.trim()) params.q = searchQuery.trim()`. -/
def mkParams (offset : Nat) (searchQuery : Option String) : SourceParams :=
  { offset := offset
    limit := PAGE_SIZE
    q := match searchQuery with
         | some s => if s.trim ≠ "" then some s.trim else none
         | none => none }

/-- The synchronous part of `fetchPage`, run before the `await` suspends:
`isLoadingRef.current = true; if (offset > 0) setIsLoadingMore(true)`. -/
def fetchPageStart (s : FeedState) (offset : Nat) : FeedState :=
  { s with isLoadingRef := true
           isLoadingMore := if offset > 0 then true else s.isLoadingMore }

/-- Outcome of awaiting `sourcesAPI.getSources`: the response body's `data`
field (itself possibly null, with possibly-null entries), or a rejection. -/
inductive FetchOutcome where
  | success (data : Option (List RawEntry))
  | failure
deriving DecidableEq

/-- The `finally` block of `fetchPage`. -/
def fetchPageFinally (s : FeedState) : FeedState :=
  { s with isLoadingRef := false, isLoadingMore := false, loading := false }

/-- The success continuation of `fetchPage`: normalization, dedup-set reset at
offset 0, the `uniqueItems` filter, the `setImages` replace/append, the
`setHasMore` from the pre-dedup length, then the `finally` block. -/
def fetchPageResolve (s : FeedState) (offset : Nat) (data : Option (List RawEntry)) :
    FeedState :=
  let incomingItems := incomingItemsOf offset data
  let seen0 := if offset = 0 then [] else s.loadedIds
  let r := dedupFilter seen0 incomingItems
  fetchPageFinally
    { s with loadedIds := r.2
             images := if offset = 0 then r.1 else s.images ++ r.1
             hasMore := incomingItems.length == PAGE_SIZE }

/-- The failure continuation of `fetchPage`: the `catch` block
(`setError("Failed to fetch space images")`) then the `finally` block. -/
def fetchPageReject (s : FeedState) : FeedState :=
  fetchPageFinally { s with error := some "Failed to fetch space images" }

/-- A whole `fetchPage` call executed without interleaving: synchronous part,
then the continuation for the given outcome. -/
def fetchPage (s : FeedState) (offset : Nat) (out : FetchOutcome) : FeedState :=
  match out with
  | .success data => fetchPageResolve (fetchPageStart s offset) offset data
  | .failure => fetchPageReject (fetchPageStart s offset)

/-- A sequence of complete `fetchPage` calls within one session. -/
def runFetches (s : FeedState) : List (Nat × FetchOutcome) → FeedState
  | [] => s
  | (offset, out) :: rest => runFetches (fetchPage s offset out) rest

/-- `loadMore(startIndex, stopIndex, items, searchQuery)`.  Returns the state
after the synchronous part and the `(offset, searchQuery)` arguments of the
`fetchPage` call it issued (`none` when it was a no-op).  `startIndex` is
accepted and unused, as in the source; the issued fetch has only run its
synchronous part. -/
def loadMore (s : FeedState) (startIndex stopIndex : Int) (items : List ImageData)
    (searchQuery : Option String) : FeedState × Option (Nat × Option String) :=
  if ¬ s.hasMore ∨ s.isLoadingRef then (s, none)
  else if stopIndex < (items.length : Int) - 1 then (s, none)
  else (fetchPageStart s items.length, some (items.length, searchQuery))

/-- `refresh(searchQuery)`: `setLoading(true); setError(null); setImages([]);
setHasMore(true); setIsLoadingMore(false); loadedIdsRef.current = new Set();
fetchPage(0, searchQuery)`.  Returns the state after the synchronous part of
the issued `fetchPage(0, searchQuery)` call, together with that call's
arguments. -/
def refresh (s : FeedState) (searchQuery : Option String) :
    FeedState × (Nat × Option String) :=
  (fetchPageStart
    { s with loading := true
             error := none
             images := []
             hasMore := true
             isLoadingMore := false
             loadedIds := [] } 0,
   (0, searchQuery))

/-- First-occurrence deduplication of a page by id, defined directly (keep
each record, remove later records carrying an already-kept id). -/
def uniqueById : List ImageData → List ImageData
  | [] => []
  | it :: rest => it :: (uniqueById rest).filter (fun x => x.id ≠ it.id)

/-- The session invariant relating `images` to the dedup set: ids of loaded
items are pairwise distinct and all recorded in `loadedIds`. -/
def FeedInv (s : FeedState) : Prop :=
  (s.images.map (fun it => it.id)).Nodup ∧ ∀ it ∈ s.images, it.id ∈ s.loadedIds

instance (s : FeedState) : Decidable (FeedInv s) := by
  unfold FeedInv; infer_instance

/-- A raw record with a numeric string id and empty display fields, used for
concrete scenarios. -/
def mkRaw (n : Nat) : RawImage :=
  { id := some (toString n), name := "", description := "", launch_date := ""
    image_url := some "", canonical_url := none, type := "", keywords := []
    photographer := "", search := false, confidence_score := none }

/-- The normalized form of `mkRaw n`. -/
def mkImg (n : Nat) : ImageData :=
  { id := toString n, name := "", description := "", launch_date := ""
    image_url := "", canonical_url := none, type := "", keywords := []
    photographer := "", search := false, confidence_score := none }

/-- Scenario A, first page: 60 unique records with ids 0–59. -/
def rawPageA1 : List RawEntry := (List.range 60).map (fun n => some (mkRaw n))

/-- Scenario A, second page: 60 records with ids 40–99 (40 overlapping). -/
def rawPageA2 : List RawEntry := (List.range' 40 60).map (fun n => some (mkRaw n))

/-- Scenario A state after the first fetch resolves. -/
def sA1 : FeedState := fetchPage initFeedState 0 (.success (some rawPageA1))

/-- Scenario A state after the `loadMore`-driven second fetch resolves. -/
def sA2 : FeedState :=
  fetchPageResolve (loadMore sA1 0 59 sA1.images none).1 60 (some rawPageA2)

/-- A response of exactly `PAGE_SIZE` raw entries, one of them null. -/
def rawPageNull : List RawEntry :=
  ((List.range 59).map (fun n => some (mkRaw n))) ++ [none]

/-! ## Properties of the dedup filter -/

theorem dedupFilter_not_mem_seen (seen : List String) (l : List ImageData) :
    ∀ x ∈ (dedupFilter seen l).1, x.id ∉ seen := by
  induction l generalizing seen with
  | nil => intro x hx; simp [dedupFilter] at hx
  | cons it rest ih =>
    intro x hx
    by_cases h : it.id ∈ seen
    · simp only [dedupFilter, if_pos h] at hx
      exact ih seen x hx
    · simp only [dedupFilter, if_neg h] at hx
      rcases List.mem_cons.mp hx with rfl | hx'
      · exact h
      · intro hmem
        exact ih (it.id :: seen) x hx' (List.mem_cons_of_mem _ hmem)

theorem dedupFilter_ids_nodup (seen : List String) (l : List ImageData) :
    ((dedupFilter seen l).1.map (fun x => x.id)).Nodup := by
  induction l generalizing seen with
  | nil => simp [dedupFilter]
  | cons it rest ih =>
    by_cases h : it.id ∈ seen
    · simp only [dedupFilter, if_pos h]
      exact ih seen
    · simp only [dedupFilter, if_neg h, List.map_cons, List.nodup_cons]
      refine ⟨?_, ih (it.id :: seen)⟩
      intro hmem
      rcases List.mem_map.mp hmem with ⟨y, hy, hid⟩
      exact dedupFilter_not_mem_seen _ _ y hy (hid ▸ List.mem_cons_self _ _)

theorem dedupFilter_seen_subset (seen : List String) (l : List ImageData) :
    ∀ a ∈ seen, a ∈ (dedupFilter seen l).2 := by
  induction l generalizing seen with
  | nil => intro a ha; simpa [dedupFilter] using ha
  | cons it rest ih =>
    intro a ha
    by_cases h : it.id ∈ seen
    · simp only [dedupFilter, if_pos h]
      exact ih seen a ha
    · simp only [dedupFilter, if_neg h]
      exact ih (it.id :: seen) a (List.mem_cons_of_mem _ ha)

theorem dedupFilter_mem_final (seen : List String) (l : List ImageData) :
    ∀ x ∈ (dedupFilter seen l).1, x.id ∈ (dedupFilter seen l).2 := by
  induction l generalizing seen with
  | nil => intro x hx; simp [dedupFilter] at hx
  | cons it rest ih =>
    intro x hx
    by_cases h : it.id ∈ seen
    · simp only [dedupFilter, if_pos h] at hx ⊢
      exact ih seen x hx
    · simp only [dedupFilter, if_neg h] at hx ⊢
      rcases List.mem_cons.mp hx with rfl | hx'
      · exact dedupFilter_seen_subset _ _ _ (List.mem_cons_self _ _)
      · exact ih (it.id :: seen) x hx'

theorem dedupFilter_sublist (seen : List String) (l : List ImageData) :
    ((dedupFilter seen l).1).Sublist l := by
  induction l generalizing seen with
  | nil => simp [dedupFilter]
  | cons it rest ih =>
    by_cases h : it.id ∈ seen
    · simp only [dedupFilter, if_pos h]
      exact (ih seen).cons it
    · simp only [dedupFilter, if_neg h]
      exact (ih (it.id :: seen)).cons₂ it

theorem dedupFilter_find_eq (seen : List String) (l : List ImageData) (v : String)
    (hv : v ∉ seen) :
    (dedupFilter seen l).1.find? (fun x => x.id == v) = l.find? (fun x => x.id == v) := by
  induction l generalizing seen with
  | nil => simp [dedupFilter]
  | cons it rest ih =>
    by_cases h : it.id ∈ seen
    · have hne : (it.id == v) = false :=
        beq_eq_false_iff_ne.mpr (fun e => hv (e ▸ h))
      simp only [dedupFilter, if_pos h, List.find?_cons, hne, cond_false]
      exact ih seen hv
    · by_cases he : it.id = v
      · have hbe : (it.id == v) = true := beq_iff_eq.mpr he
        simp only [dedupFilter, if_neg h, List.find?_cons, hbe, cond_true]
      · have hbe : (it.id == v) = false := beq_eq_false_iff_ne.mpr he
        simp only [dedupFilter, if_neg h, List.find?_cons, hbe, cond_false]
        refine ih (it.id :: seen) ?_
        intro hm
        rcases List.mem_cons.mp hm with h1 | h2
        · exact he h1.symm
        · exact hv h2

theorem dedupFilter_eq_uniqueById_filter (seen : List String) (l : List ImageData) :
    (dedupFilter seen l).1 = (uniqueById l).filter (fun x => x.id ∉ seen) := by
  induction l generalizing seen with
  | nil => simp [dedupFilter, uniqueById]
  | cons it rest ih =>
    by_cases h : it.id ∈ seen
    · simp only [dedupFilter, if_pos h, uniqueById, List.filter_cons,
        decide_eq_true_eq]
      rw [if_neg (by simp [h]), List.filter_filter, ih seen]
      apply List.filter_congr
      intro x _
      by_cases hx : x.id ∈ seen
      · simp [hx]
      · have hne : x.id ≠ it.id := fun e => hx (e ▸ h)
        simp [hx, hne]
    · simp only [dedupFilter, if_neg h, uniqueById, List.filter_cons,
        decide_eq_true_eq]
      rw [if_pos (by simp [h]), List.filter_filter, ih (it.id :: seen)]
      congr 1
      apply List.filter_congr
      intro x _
      by_cases h1 : x.id = it.id
      · simp [h1, h]
      · by_cases h2 : x.id ∈ seen <;> simp [h1, h2]

theorem dedupFilter_nil_eq_uniqueById (l : List ImageData) :
    (dedupFilter [] l).1 = uniqueById l := by
  rw [dedupFilter_eq_uniqueById_filter]
  apply List.filter_eq_self.mpr
  intro a _
  simp

/-! ## Lengths of the normalized page -/

theorem normalizeFrom_length (offset : Nat) (i : Nat) (l : List RawImage) :
    (normalizeFrom offset i l).length = l.length := by
  induction l generalizing i with
  | nil => rfl
  | cons a rest ih => simp [normalizeFrom, ih]

theorem filterMap_id_map_some (l : List RawImage) :
    ((l.map some).filterMap id) = l := by
  induction l with
  | nil => rfl
  | cons a rest ih => simp [ih]

theorem filterMap_id_length_lt (data : List RawEntry) (h : none ∈ data) :
    (data.filterMap id).length < data.length := by
  induction data with
  | nil => simp at h
  | cons a rest ih =>
    cases a with
    | none =>
      have hle := List.length_filterMap_le (id : RawEntry → RawEntry) rest
      simp only [List.filterMap_cons, id_eq, List.length_cons]
      omega
    | some x =>
      have hr : none ∈ rest := by
        rcases List.mem_cons.mp h with h1 | h2
        · exact absurd h1.symm (Option.some_ne_none x)
        · exact h2
      have := ih hr
      simp only [List.filterMap_cons, id_eq, List.length_cons]
      omega

/-! ## Preservation of the session invariant -/

theorem feedInv_fetchPage (s : FeedState) (offset : Nat) (out : FetchOutcome)
    (h : FeedInv s) : FeedInv (fetchPage s offset out) := by
  cases out with
  | failure =>
    exact h
  | success data =>
    by_cases h0 : offset = 0
    · subst h0
      constructor
      · simp only [fetchPage, fetchPageResolve, fetchPageFinally, fetchPageStart,
          if_pos rfl]
        exact dedupFilter_ids_nodup [] (incomingItemsOf 0 data)
      · intro it hit
        simp only [fetchPage, fetchPageResolve, fetchPageFinally, fetchPageStart,
          if_pos rfl] at hit ⊢
        exact dedupFilter_mem_final _ _ it hit
    · have hnd := dedupFilter_ids_nodup s.loadedIds (incomingItemsOf offset data)
      have hns := dedupFilter_not_mem_seen s.loadedIds (incomingItemsOf offset data)
      constructor
      · simp only [fetchPage, fetchPageResolve, fetchPageFinally, fetchPageStart,
          if_neg h0, List.map_append]
        refine List.Nodup.append h.1 hnd ?_
        rw [List.disjoint_left]
        intro a ha hb
        rcases List.mem_map.mp ha with ⟨x, hx, rfl⟩
        rcases List.mem_map.mp hb with ⟨y, hy, hida⟩
        exact hns y hy (hida ▸ h.2 x hx)
      · intro it hit
        simp only [fetchPage, fetchPageResolve, fetchPageFinally, fetchPageStart,
          if_neg h0] at hit ⊢
        rcases List.mem_append.mp hit with h1 | h2
        · exact dedupFilter_seen_subset _ _ _ (h.2 it h1)
        · exact dedupFilter_mem_final _ _ it h2

theorem feedInv_runFetches (s : FeedState) (ops : List (Nat × FetchOutcome))
    (h : FeedInv s) : FeedInv (runFetches s ops) := by
  induction ops generalizing s with
  | nil => exact h
  | cons op rest ih =>
    obtain ⟨o, u⟩ := op
    exact ih _ (feedInv_fetchPage s o u h)

/-! ## The claims -/

/-- Claim C1 — for every sequence of `fetchPage` calls within one session (no
intervening refresh), starting from any state satisfying the session
invariant, the resulting `items` sequence contains no two entries with equal
id: incoming records whose id is in the dedup set are filtered out before
`items` is updated, and surviving ids are added to the set. -/
theorem fetchPage_sequence_nodup (s : FeedState) (h : FeedInv s)
    (ops : List (Nat × FetchOutcome)) :
    ((runFetches s ops).images.map (fun it => it.id)).Nodup :=
  (feedInv_runFetches s ops h).1

theorem fetchPage_sequence_nodup_witness :
    FeedInv initFeedState ∧
      ((runFetches initFeedState
          [(0, .success (some [some (mkRaw 0), some (mkRaw 1)])),
           (2, .success (some [some (mkRaw 1), some (mkRaw 2)]))]).images.map
            (fun it => it.id)).Nodup :=
  ⟨by decide,
   fetchPage_sequence_nodup initFeedState (by decide)
     [(0, .success (some [some (mkRaw 0), some (mkRaw 1)])),
      (2, .success (some [some (mkRaw 1), some (mkRaw 2)]))]⟩

/-- Claim C2 — if a second `loadMore` trigger is issued while a first
`loadMore`-initiated fetch is still in flight (the in-flight flag is set by
the synchronous part of the fetch and cleared only by its continuation),
exactly one `fetchPage` call — hence one network call — is made, not two. -/
theorem loadMore_reentrancy (s : FeedState) (st1 sp1 st2 sp2 : Int)
    (items1 items2 : List ImageData) (q1 q2 : Option String)
    (h : ((loadMore s st1 sp1 items1 q1).2).isSome = true) :
    ((loadMore s st1 sp1 items1 q1).2.toList ++
      (loadMore (loadMore s st1 sp1 items1 q1).1 st2 sp2 items2 q2).2.toList).length
      = 1 := by
  cases hm : s.hasMore with
  | false => simp [loadMore, hm] at h
  | true =>
    cases hr : s.isLoadingRef with
    | true => simp [loadMore, hm, hr] at h
    | false =>
      by_cases hs : sp1 < (items1.length : Int) - 1
      · simp [loadMore, hm, hr, hs] at h
      · simp [loadMore, hm, hr, hs, fetchPageStart]

theorem loadMore_reentrancy_witness :
    ((loadMore initFeedState 0 0 [] none).2.toList ++
      (loadMore (loadMore initFeedState 0 0 [] none).1 0 0 [] none).2.toList).length
      = 1 :=
  loadMore_reentrancy initFeedState 0 0 0 0 [] [] none none (by decide)

/-- Claim C3 — after every successful `fetchPage` call, `hasMore` equals
(raw page length == PAGE_SIZE), the count being the pre-dedup number of
records in the response; in particular a full page of already-loaded ids
still yields `hasMore = true`, and a short page yields `hasMore = false`. -/
theorem hasMore_pre_dedup_count (s : FeedState) (offset : Nat)
    (records : List RawImage) :
    ((fetchPage s offset (.success (some (records.map some)))).hasMore
        = (records.length == PAGE_SIZE))
    ∧ (records.length = PAGE_SIZE →
        (∀ it ∈ incomingItemsOf offset (some (records.map some)),
          it.id ∈ s.loadedIds) →
        (fetchPage s offset (.success (some (records.map some)))).hasMore = true)
    ∧ (records.length < PAGE_SIZE →
        (fetchPage s offset (.success (some (records.map some)))).hasMore = false) := by
  have hlen : (incomingItemsOf offset (some (records.map some))).length
      = records.length := by
    simp [incomingItemsOf, normalizeFrom_length, filterMap_id_map_some]
  have hmain : (fetchPage s offset (.success (some (records.map some)))).hasMore
      = (records.length == PAGE_SIZE) := by
    simp only [fetchPage, fetchPageResolve, fetchPageFinally, fetchPageStart]
    rw [hlen]
  refine ⟨hmain, ?_, ?_⟩
  · intro h _
    rw [hmain]
    simp [h]
  · intro h
    rw [hmain]
    exact beq_eq_false_iff_ne.mpr (Nat.ne_of_lt h)

theorem hasMore_pre_dedup_count_witness :
    ((List.range 59).map mkRaw).length < PAGE_SIZE ∧
      (fetchPage initFeedState 0
        (.success (some (((List.range 59).map mkRaw).map some)))).hasMore = false :=
  ⟨by decide,
   (hasMore_pre_dedup_count initFeedState 0 ((List.range 59).map mkRaw)).2.2
     (by decide)⟩

/-- Claim C4 — `refresh` immediately (before any fetch resolves) resets
`items` to empty, resets the dedup set, sets `hasMore` to true, clears
`error`, sets the initial-loading flag, and issues `fetchPage(0, searchTerm)`
with the given term; after that fetch resolves successfully, `items` equals
exactly the first page's unique (first-occurrence deduplicated) records. -/
theorem refresh_resets (s : FeedState) (q : Option String)
    (data : Option (List RawEntry)) :
    (refresh s q).1.images = []
    ∧ (refresh s q).1.loadedIds = []
    ∧ (refresh s q).1.hasMore = true
    ∧ (refresh s q).1.error = none
    ∧ (refresh s q).1.loading = true
    ∧ (refresh s q).2 = (0, q)
    ∧ (fetchPageResolve (refresh s q).1 0 data).images
        = uniqueById (incomingItemsOf 0 data) := by
  refine ⟨rfl, rfl, rfl, rfl, rfl, rfl, ?_⟩
  have himg : (fetchPageResolve (refresh s q).1 0 data).images
      = (dedupFilter [] (incomingItemsOf 0 data)).1 := by
    simp [fetchPageResolve, fetchPageFinally]
  rw [himg, dedupFilter_nil_eq_uniqueById]

/-- Claim C5 — `loadMore` is a no-op (no fetch, state unchanged) unless
`hasMore` is true, no fetch is in flight, and the view's stop index has
reached `currentItems.length - 1`; when all three hold it calls `fetchPage`
with offset `currentItems.length` and the given search term. -/
theorem loadMore_trigger (s : FeedState) (st sp : Int) (items : List ImageData)
    (q : Option String) :
    (s.hasMore = true → s.isLoadingRef = false → (items.length : Int) - 1 ≤ sp →
        (loadMore s st sp items q).2 = some (items.length, q))
    ∧ (¬ (s.hasMore = true ∧ s.isLoadingRef = false ∧
            (items.length : Int) - 1 ≤ sp) →
        loadMore s st sp items q = (s, none)) := by
  constructor
  · intro h1 h2 h3
    have hs : ¬ (sp < (items.length : Int) - 1) := by omega
    simp [loadMore, h1, h2, hs]
  · intro hn
    cases hm : s.hasMore with
    | false => simp [loadMore, hm]
    | true =>
      cases hr : s.isLoadingRef with
      | true => simp [loadMore, hm, hr]
      | false =>
        have hsp : sp < (items.length : Int) - 1 := by
          by_contra hq
          exact hn ⟨hm, hr, by omega⟩
        simp [loadMore, hm, hr, hsp]

theorem loadMore_trigger_witness :
    (loadMore initFeedState 0 0 [] none).2 = some (0, none) :=
  (loadMore_trigger initFeedState 0 0 [] none).1 rfl rfl (by decide)

/-- Claim C6 — when `fetchPage` fails, the error state is set to a non-empty
message, the prior `items` and `hasMore` are left unchanged, and the
in-flight / loading-more flags are cleared on completion (as on success); in
particular a failing fetch at offset 0 leaves `items` empty and the
initial-loading flag false afterward. -/
theorem fetchPage_failure_state (s : FeedState) (offset : Nat)
    (data : Option (List RawEntry)) :
    ((fetchPage s offset .failure).error = some "Failed to fetch space images"
      ∧ "Failed to fetch space images" ≠ ""
      ∧ (fetchPage s offset .failure).images = s.images
      ∧ (fetchPage s offset .failure).hasMore = s.hasMore
      ∧ (fetchPage s offset .failure).isLoadingRef = false
      ∧ (fetchPage s offset .failure).isLoadingMore = false
      ∧ (fetchPage s offset .failure).loading = false)
    ∧ ((fetchPage s offset (.success data)).isLoadingRef = false
      ∧ (fetchPage s offset (.success data)).isLoadingMore = false)
    ∧ (s.images = [] →
        (fetchPage s 0 .failure).images = []
          ∧ (fetchPage s 0 .failure).loading = false) := by
  refine ⟨⟨rfl, by decide, rfl, rfl, rfl, rfl, rfl⟩, ⟨rfl, rfl⟩, ?_⟩
  intro h
  exact ⟨h, rfl⟩

theorem fetchPage_failure_state_witness :
    initFeedState.images = [] ∧
      ((fetchPage initFeedState 0 .failure).images = []
        ∧ (fetchPage initFeedState 0 .failure).loading = false) :=
  ⟨rfl, (fetchPage_failure_state initFeedState 0 none).2.2 rfl⟩

set_option maxRecDepth 100000 in
/-- Claim C7 (Scenario A) — with `PAGE_SIZE = 60`: a first fetch returning 60
unique records with ids 0–59 yields 60 items and `hasMore = true`; a second
`loadMore`-driven fetch at offset 60 returning records with ids 40–99 (40
overlapping) yields 100 items — the 60 originals followed by the 40 new
records with ids 60–99 — and `hasMore = true` because the raw page length 60
equals `PAGE_SIZE`. -/
theorem scenarioA :
    sA1.images.length = 60 ∧ sA1.hasMore = true
    ∧ (loadMore sA1 0 59 sA1.images none).2 = some (60, none)
    ∧ sA2.images.length = 100 ∧ sA2.hasMore = true
    ∧ sA2.images = sA1.images ++ (List.range' 60 40).map mkImg := by decide

/-- Claim C8, counterexample — contrary to the claim, a successful
`fetchPage` (as issued by `loadMore`) does not clear a previously set error:
after a failure followed by a successful fetch, `error` is still set. -/
theorem error_cleared_on_success_cex :
    (fetchPage initFeedState 0 .failure).error ≠ none
    ∧ (fetchPage (fetchPage initFeedState 0 .failure) 0
        (.success (some [some (mkRaw 0)]))).error ≠ none := by decide

/-- Claim C8, amended — the error state is set on fetch failure; it is
cleared by `refresh` (synchronously, before its fetch starts), but a
successful `fetchPage` — including a `loadMore`-driven one — leaves a prior
error unchanged. -/
theorem error_lifecycle (s : FeedState) (offset : Nat) (q : Option String)
    (data : Option (List RawEntry)) :
    (fetchPage s offset .failure).error = some "Failed to fetch space images"
    ∧ (fetchPage s offset (.success data)).error = s.error
    ∧ (refresh s q).1.error = none :=
  ⟨rfl, rfl, rfl⟩

/-- Claim C9 — deduplication in `fetchPage` is first-occurrence and
order-preserving: the admitted records form a sublist of the fetched page
(same relative order), their ids are pairwise distinct, the record admitted
for an unseen id is the first record of the page carrying that id, and at a
positive offset the admitted records are appended after all previously
loaded items. -/
theorem dedup_first_occurrence (seen : List String) (l : List ImageData)
    (v : String) (s : FeedState) (offset : Nat) (data : Option (List RawEntry)) :
    ((dedupFilter seen l).1).Sublist l
    ∧ ((dedupFilter seen l).1.map (fun x => x.id)).Nodup
    ∧ ((dedupFilter seen l).1.find? (fun x => x.id == v)
        = if v ∈ seen then none else l.find? (fun x => x.id == v))
    ∧ (fetchPage s (offset + 1) (.success data)).images
        = s.images ++ (dedupFilter s.loadedIds (incomingItemsOf (offset + 1) data)).1 := by
  refine ⟨dedupFilter_sublist seen l, dedupFilter_ids_nodup seen l, ?_, ?_⟩
  · by_cases hv : v ∈ seen
    · rw [if_pos hv]
      apply List.find?_eq_none.mpr
      intro x hx
      simp only [beq_iff_eq]
      intro e
      exact dedupFilter_not_mem_seen seen l x hx (e ▸ hv)
    · rw [if_neg hv]
      exact dedupFilter_find_eq seen l v hv
  · simp [fetchPage, fetchPageResolve, fetchPageFinally, fetchPageStart]

/-- Claim C10 — `fetchPage` discards falsy (null) entries of the raw response
array before id-assignment and dedup, and the discarded entries count against
`hasMore`: it is computed from the post-discard length, so a response of
exactly `PAGE_SIZE` raw entries one of which is null yields
`hasMore = false`. -/
theorem falsy_entries_discarded (s : FeedState) (offset : Nat)
    (data : List RawEntry) :
    (incomingItemsOf offset (some data)
        = incomingItemsOf offset (some ((data.filterMap id).map some)))
    ∧ ((fetchPage s offset (.success (some data))).hasMore
        = ((data.filterMap id).length == PAGE_SIZE))
    ∧ (data.length = PAGE_SIZE → none ∈ data →
        (fetchPage s offset (.success (some data))).hasMore = false) := by
  have h1 : incomingItemsOf offset (some data)
      = incomingItemsOf offset (some ((data.filterMap id).map some)) := by
    simp [incomingItemsOf, filterMap_id_map_some]
  have h2 : (fetchPage s offset (.success (some data))).hasMore
      = ((data.filterMap id).length == PAGE_SIZE) := by
    simp only [fetchPage, fetchPageResolve, fetchPageFinally, fetchPageStart]
    rw [show (incomingItemsOf offset (some data)).length
        = (data.filterMap id).length from by
      simp [incomingItemsOf, normalizeFrom_length]]
  refine ⟨h1, h2, ?_⟩
  intro hfull hnull
  rw [h2]
  have := filterMap_id_length_lt data hnull
  exact beq_eq_false_iff_ne.mpr (by omega)

theorem falsy_entries_discarded_witness :
    rawPageNull.length = PAGE_SIZE ∧ none ∈ rawPageNull ∧
      (fetchPage initFeedState 0 (.success (some rawPageNull))).hasMore = false :=
  ⟨by decide, by decide,
   (falsy_entries_discarded initFeedState 0 rawPageNull).2.2 (by decide) (by decide)⟩
